import Mathlib

/-!
Verification of the household energy-scheduling core.

We give a shallow embedding, in Lean, of the scheduling-and-simulation
kernel of the repository: the time-of-use pricing table and `get_price`
(environment.py), the household state and `get_daily_budget`
(environment.py), the day simulator `simulate_day` (environment.py),
the baseline and greedy allocators (agent.py, second definitions of
`_baseline_policy` / `_greedy_policy`, which are the ones in effect),
and the savings calculator `compute_savings` (utils.py).

Real numbers of the source (Python floats) are modelled by `ℚ`;
Python integers by `ℤ` (loop counters and hour indices by `ℕ`);
Python dictionaries by association lists in insertion order;
a Python operation that can raise is modelled by `Option`.
-/

namespace EnergyAdvisor

/-- Appliance record (environment.py, class `Appliance` together with
`_appliance_init`).  The two synchronized attributes `scheduledStart` and
`scheduled_start` are modelled by the single field `scheduledStart`,
since the source keeps them equal at every point it reads them. -/
structure Appliance where
  name : String
  powerkW : ℚ
  durationHours : ℚ
  deadlineHour : ℤ
  isFlexible : Bool
  isScheduled : Bool
  scheduledStart : Option ℤ
deriving Repr, DecidableEq

instance : Inhabited Appliance := ⟨⟨"", 0, 0, 0, true, false, none⟩⟩

/-- `Appliance.__init__` (environment.py, `_appliance_init`), with the
default `isFlexible=True`. -/
def mkAppliance (name : String) (powerkW durationHours : ℚ) (deadlineHour : ℤ) : Appliance :=
  ⟨name, powerkW, durationHours, deadlineHour, true, false, none⟩

/-- HVAC system (environment.py, class `HVACSystem`).  The accessor
`base_setpoint` of the source is an alias of `setpoint`. -/
structure HVACSystem where
  currentTemp : ℚ
  setpoint : ℚ
  minTemp : ℚ
  maxTemp : ℚ
  powerkW : ℚ
deriving Repr, DecidableEq

/-- Class-level defaults of `HVACSystem`. -/
def defaultHVAC : HVACSystem := ⟨72, 72, 68, 76, 3.5⟩

/-- `HVACSystem.is_comfortable` (environment.py). -/
def HVACSystem.is_comfortable (h : HVACSystem) : Prop :=
  h.minTemp ≤ h.currentTemp ∧ h.currentTemp ≤ h.maxTemp

instance (h : HVACSystem) : Decidable h.is_comfortable := by
  unfold HVACSystem.is_comfortable; infer_instance

/-- `TOUPricing._create_pricing_schedule` (environment.py): the 24-hour
price table as a function of the hour key `0 ≤ hour < 24`.  The source
builds a dictionary over `range(24)` with exactly these three band
conditionals per profile; an unrecognized profile takes the `else`
(winter) branch. -/
def create_pricing_schedule (pricingType : String) (hour : ℕ) : ℚ :=
  if pricingType = "standard" then
    if hour < 6 then 0.08
    else if 16 ≤ hour ∧ hour < 21 then 0.32
    else 0.15
  else if pricingType = "summer" then
    if hour < 6 then 0.09
    else if 14 ≤ hour ∧ hour < 22 then 0.38
    else 0.17
  else
    if hour < 6 then 0.07
    else if 17 ≤ hour ∧ hour < 20 then 0.28
    else 0.14

/-- `TOUPricing.get_price` (environment.py): `self.prices[hour % 24]`.
Python `%` on a positive modulus agrees with `Int.emod`, so the key is
always in `[0, 24)` and the dictionary lookup never fails. -/
def get_price (pricingType : String) (hour : ℤ) : ℚ :=
  create_pricing_schedule pricingType (hour % 24).toNat

/-- `HouseholdEnvironment.tou_prices` (environment.py):
`[self.tou_pricing.get_price(h) for h in range(24)]`. -/
def tou_prices (pricingType : String) : List ℚ :=
  (List.range 24).map (fun h => get_price pricingType (h : ℤ))

/-- Household state (environment.py, class `Household` /
`HouseholdEnvironment`).  The pricing table is determined by
`pricingType`, exactly as `TOUPricing` builds it at construction. -/
structure Household where
  monthlyBudget : ℚ
  currentDay : ℤ
  monthDays : ℤ
  currentHour : ℤ
  energyUsedToday : ℚ
  energyUsedMonth : ℚ
  todayCost : ℚ
  monthCost : ℚ
  pricingType : String
  hvac : HVACSystem
  appliances : List Appliance
  hourly_usage : List ℚ
  hourly_costs : List ℚ
deriving Repr, DecidableEq

/-- `Household.__init__` (environment.py). -/
def mkHousehold (monthlyBudget : ℚ) (pricingType : String)
    (currentDay : ℤ) (monthDays : ℤ) : Household :=
  { monthlyBudget := monthlyBudget
    currentDay := currentDay
    monthDays := monthDays
    currentHour := 0
    energyUsedToday := 0
    energyUsedMonth := 0
    todayCost := 0
    monthCost := 0
    pricingType := pricingType
    hvac := defaultHVAC
    appliances := []
    hourly_usage := []
    hourly_costs := [] }

/-- `Household.add_appliance` (environment.py). -/
def add_appliance (h : Household) (a : Appliance) : Household :=
  { h with appliances := h.appliances ++ [a] }

/-- `Household.get_daily_budget` (environment.py):
`days_remaining = monthDays - currentDay + 1`;
`budget_remaining = monthlyBudget - energyUsedMonth`;
returns `0.0` when `days_remaining <= 0`, else
`budget_remaining / days_remaining`. -/
def get_daily_budget (h : Household) : ℚ :=
  let days_remaining : ℤ := h.monthDays - h.currentDay + 1
  let budget_remaining : ℚ := h.monthlyBudget - h.energyUsedMonth
  if days_remaining ≤ 0 then 0
  else budget_remaining / (days_remaining : ℚ)

/-- `compute_savings` (utils.py).  A `total_cost` entry that is missing
or not numeric is modelled by `none`.  The result pair is
`(absolute, percent)`. -/
def compute_savings (bc gc : Option ℚ) : ℚ × ℚ :=
  match bc, gc with
  | some b, some g =>
      if b ≤ 0 then (0, 0)
      else (b - g, (b - g) / b * 100)
  | _, _ => (0, 0)

/-! ### Day simulator (environment.py, `HouseholdEnvironment.simulate_day`) -/

/-- A schedule, as passed to the simulator: the dictionary
`hour → list of appliance names`, in insertion order. -/
abbrev Schedule := List (ℤ × List String)

/-- Result dictionary of `simulate_day`. -/
structure Metrics where
  total_kwh : ℚ
  total_cost : ℚ
  hourly_usage : List ℚ
  hourly_costs : List ℚ
  comfort_violations : ℕ
  missed_deadlines : ℕ
  daily_budget_kwh : ℚ
deriving Repr, DecidableEq

/-- The reset loop of `simulate_day`: `a.isScheduled = False`,
`a.scheduled_start = None`, `a.scheduledStart = None`. -/
def clearAppliance (a : Appliance) : Appliance :=
  { a with isScheduled := false, scheduledStart := none }

/-- Inner lookup of the schedule-application loop of `simulate_day`:
scan `self.appliances` for the first appliance named `n` and mark it
scheduled at hour `hr` (the `break` stops after the first match); a
name matching no appliance changes nothing. -/
def assignFirst (n : String) (hr : ℤ) : List Appliance → List Appliance
  | [] => []
  | a :: rest =>
      if a.name = n then
        { a with isScheduled := true, scheduledStart := some hr } :: rest
      else
        a :: assignFirst n hr rest

/-- The schedule-application loop of `simulate_day`:
`for hour, names in schedule.items(): for name in names: ...`. -/
def applySchedule (sched : Schedule) (apps : List Appliance) : List Appliance :=
  sched.foldl (fun apps p => p.2.foldl (fun apps n => assignFirst n p.1 apps) apps) apps

/-- All names mentioned anywhere in a schedule. -/
def scheduleNames (sched : Schedule) : List String :=
  (sched.map Prod.snd).flatten

/-- One appliance's contribution to one hour's usage in `simulate_day`:
`0` when `scheduled_start` is `None` or `not duration` (i.e. the
duration is the number `0`), else `power_kw` exactly when
`start <= h < start + duration`. -/
def applianceContrib (hr : ℕ) (a : Appliance) : ℚ :=
  match a.scheduledStart with
  | none => 0
  | some s =>
      if a.durationHours = 0 then 0
      else if (s : ℚ) ≤ (hr : ℚ) ∧ (hr : ℚ) < (s : ℚ) + a.durationHours then a.powerkW
      else 0

/-- Usage of hour `hr` in `simulate_day`: the appliance contributions
plus the constant HVAC draw `self.hvac.powerkW`. -/
def hourUsage (apps : List Appliance) (hvacPower : ℚ) (hr : ℕ) : ℚ :=
  (apps.map (applianceContrib hr)).sum + hvacPower

/-- The thermostat part of one iteration of the hourly loop of
`simulate_day`: when the setpoint curve has an entry for the hour, both
`setpoint` and `currentTemp` are overwritten with it; then the comfort
check `is_comfortable` is made on the updated state.  The fold state is
`(hvac, comfort_violations)`. -/
def comfortStep (curve : List ℚ) : HVACSystem × ℕ → ℕ → HVACSystem × ℕ
  | (hv, v), hr =>
      let hv' := if hr < curve.length
        then { hv with setpoint := curve.getD hr 0, currentTemp := curve.getD hr 0 }
        else hv
      (hv', if hv'.is_comfortable then v else v + 1)

/-- `HouseholdEnvironment.simulate_day` (environment.py, lines 252-328),
as a function from the pre-state to the post-state plus the returned
metrics dictionary.  The per-hour usage and cost do not depend on the
running thermostat state (the HVAC draw is the constant `powerkW`), so
they are computed by a map over the 24 hours exactly as the source's
loop writes them into the pre-zeroed arrays; the thermostat state and
the comfort-violation count are threaded through `comfortStep`. -/
def simulate_day (h : Household) (sched : Schedule) (curve : List ℚ) :
    Household × Metrics :=
  let apps1 := applySchedule sched (h.appliances.map clearAppliance)
  let usageList := (List.range 24).map (hourUsage apps1 h.hvac.powerkW)
  let costList := (List.range 24).map
    (fun hr => hourUsage apps1 h.hvac.powerkW hr * get_price h.pricingType (hr : ℤ))
  let totKwh := usageList.sum
  let totCost := costList.sum
  let final := (List.range 24).foldl (comfortStep curve) (h.hvac, 0)
  let missed := apps1.countP (fun a =>
    match a.scheduledStart with
    | none => false
    | some s =>
        if a.durationHours = 0 then false
        else decide ((a.deadlineHour : ℚ) < (s : ℚ) + a.durationHours))
  let h' : Household :=
    { h with
      appliances := apps1
      hvac := final.1
      energyUsedToday := totKwh
      todayCost := totCost
      energyUsedMonth := h.energyUsedMonth + totKwh
      monthCost := h.monthCost + totCost
      hourly_usage := usageList
      hourly_costs := costList }
  (h', { total_kwh := totKwh
         total_cost := totCost
         hourly_usage := usageList
         hourly_costs := costList
         comfort_violations := final.2
         missed_deadlines := missed
         daily_budget_kwh := get_daily_budget h' })

/-! ### Allocators (agent.py; the second definitions of
`_baseline_policy` and `_greedy_policy` in the class body are the ones
in effect) -/

/-- Python `int(...)` on a real number: truncation toward zero. -/
def pyInt (q : ℚ) : ℤ :=
  if q < 0 then ⌈q⌉ else ⌊q⌋

/-- `max(1, int(a.duration_hours))`, the whole-hour duration used by
both allocators (agent.py lines 129 and 151). -/
def intDuration (a : Appliance) : ℕ :=
  (max 1 (pyInt a.durationHours)).toNat

/-- `_baseline_policy` (agent.py lines 119-136), appliance placements
only (the HVAC curve is the constant `base_setpoint`).  The schedule
dictionary has exactly the keys `0..23`; appending at `start_hour = 24`
(possible when the clamped running end has reached 24 with appliances
left) raises a `KeyError` in the source, modelled by `none`.  On
success the placement list pairs each appliance's start hour with its
name, in arrival order. -/
def baselineAux : List Appliance → ℕ → Option (List (ℕ × String))
  | [], _ => some []
  | a :: rest, cur =>
      if cur < 24 then
        match baselineAux rest (min 24 (cur + intDuration a)) with
        | some l => some ((cur, a.name) :: l)
        | none => none
      else none

/-- The baseline allocator started at `current_hour = 0`. -/
def baseline_policy (apps : List Appliance) : Option (List (ℕ × String)) :=
  baselineAux apps 0

/-- The start hours the baseline allocator attempts, ignoring the
failure of the dictionary lookup: first appliance at 0, each next at
`min(24, previous start + previous clamped duration)`. -/
def baselineStarts : List Appliance → ℕ → List (ℕ × String)
  | [], _ => []
  | a :: rest, cur => (cur, a.name) :: baselineStarts rest (min 24 (cur + intDuration a))

/-- Cost of running an appliance of whole-hour duration `d` from hour
`s` (agent.py lines 164-166): `cost += power * prices[h]` for `h` in
`range(start, end)`. -/
def candCost (power : ℚ) (prices : List ℚ) (s d : ℕ) : ℚ :=
  (List.range d).foldl (fun c i => c + power * prices.getD (s + i) 0) 0

/-- One iteration of the candidate loop of `_greedy_policy` (agent.py
lines 158-170) at candidate `s`, acting on the accumulator
`(best_start, best_cost)`; the initial `best_cost = float("inf")` is
`none`.  Candidates with `end > 24` are skipped; the comparison is
strict, so an earlier candidate survives a tie. -/
def greedyStep (power : ℚ) (prices : List ℚ) (d s : ℕ) :
    ℕ × Option ℚ → ℕ × Option ℚ
  | (bs, bc) =>
      if 24 < s + d then (bs, bc)
      else
        let c := candCost power prices s d
        match bc with
        | none => (s, some c)
        | some b => if c < b then (s, some c) else (bs, some b)

/-- The candidate loop `for start in range(0, latest_start + 1)`:
`greedyScan power prices d n s acc` processes candidates
`s, s+1, …, s+n-1` in increasing order. -/
def greedyScan (power : ℚ) (prices : List ℚ) (d : ℕ) :
    ℕ → ℕ → ℕ × Option ℚ → ℕ × Option ℚ
  | 0, _, acc => acc
  | n + 1, s, acc => greedyScan power prices d n (s + 1) (greedyStep power prices d s acc)

/-- Loop invariant of the candidate scan of `_greedy_policy` after the
candidates `0, …, s-1` have been examined: while no feasible candidate
has been seen, the accumulator still holds the initial
`(0, float("inf"))`; afterwards it holds the earliest feasible
candidate of minimum cost so far, paired with that cost. -/
def ScanInv (power : ℚ) (prices : List ℚ) (d s : ℕ) (acc : ℕ × Option ℚ) : Prop :=
  (acc.2 = none → acc.1 = 0 ∧ ∀ t, t < s → ¬(t + d ≤ 24)) ∧
  (∀ b, acc.2 = some b → acc.1 + d ≤ 24 ∧ acc.1 < s ∧ b = candCost power prices acc.1 d ∧
    (∀ t, t < s → t + d ≤ 24 → b ≤ candCost power prices t d) ∧
    (∀ t, t < acc.1 → t + d ≤ 24 → b < candCost power prices t d))

/-- `latest_start = max(0, deadline - duration + 1)` (agent.py line 154). -/
def latestStart (a : Appliance) : ℕ :=
  (max 0 (a.deadlineHour - (intDuration a : ℤ) + 1)).toNat

/-- The start `_greedy_policy` chooses for one appliance (agent.py
lines 150-172): the final `best_start` of the candidate loop, starting
from `best_start = 0`, `best_cost = inf`. -/
def greedyStartFor (prices : List ℚ) (a : Appliance) : ℕ :=
  (greedyScan a.powerkW prices (intDuration a) (latestStart a + 1) 0 (0, none)).1

/-- The appliance placements of `_greedy_policy`: appliances sorted by
`int(a.deadline_hour)` (stable sort, so arrival order breaks ties),
each placed at its chosen start. -/
def greedySchedule (prices : List ℚ) (apps : List Appliance) : List (ℕ × String) :=
  ((apps.mergeSort (fun a b => a.deadlineHour ≤ b.deadlineHour)).map
    (fun a => (greedyStartFor prices a, a.name)))

/-- `sorted(prices)` followed by
`peak_threshold = sorted_prices[int(0.75 * len(sorted_prices))]`
(agent.py lines 180-181).  Python's `sorted` produces the ascending
reordering, which is unique; we realize it with insertion sort. -/
def peakThreshold (prices : List ℚ) : ℚ :=
  (List.insertionSort (· ≤ ·) prices).getD (pyInt (0.75 * (prices.length : ℚ))).toNat 0

/-- The HVAC curve of `_greedy_policy` (agent.py lines 183-189):
during hours whose price reaches the peak threshold the setpoint is
relaxed to `min(max_t, base + 2.0)`, otherwise it stays at `base`. -/
def hvacSetpoints (prices : List ℚ) (base maxT : ℚ) : List ℚ :=
  (List.range 24).map (fun h =>
    if peakThreshold prices ≤ prices.getD h 0 then min maxT (base + 2) else base)

/-! ## Theorems -/

/-- C6: for every profile in {standard, summer, winter} and every
integer hour, including negative and out-of-range ones, `get_price`
returns the band price of `hour mod 24`: standard gives 0.08 on [0,6),
0.32 on [16,21), 0.15 otherwise; summer gives 0.09 on [0,6), 0.38 on
[14,22), 0.17 otherwise; winter gives 0.07 on [0,6), 0.28 on [17,20),
0.14 otherwise.  The function is total, so it never raises. -/
theorem get_price_bands (hour : ℤ) :
    (get_price "standard" hour =
      if hour % 24 < 6 then 0.08
      else if 16 ≤ hour % 24 ∧ hour % 24 < 21 then 0.32 else 0.15) ∧
    (get_price "summer" hour =
      if hour % 24 < 6 then 0.09
      else if 14 ≤ hour % 24 ∧ hour % 24 < 22 then 0.38 else 0.17) ∧
    (get_price "winter" hour =
      if hour % 24 < 6 then 0.07
      else if 17 ≤ hour % 24 ∧ hour % 24 < 20 then 0.28 else 0.14) := by
  have h0 : 0 ≤ hour % 24 := Int.emod_nonneg hour (by norm_num)
  unfold get_price create_pricing_schedule
  refine ⟨?_, ?_, ?_⟩
  · rw [if_pos rfl]
    split_ifs <;> first | rfl | omega
  · rw [if_neg (by decide), if_pos rfl]
    split_ifs <;> first | rfl | omega
  · rw [if_neg (by decide), if_neg (by decide)]
    split_ifs <;> first | rfl | omega

/-- C9: `compute_savings` returns
`(baseline - greedy, (baseline - greedy)/baseline × 100)` whenever the
baseline total cost is a number `> 0` and the greedy total cost is a
number, and returns `(0, 0)`, with no division, whenever the baseline
total cost is missing (or non-numeric, both modelled by `none`) or
`≤ 0`. -/
theorem compute_savings_cases (bc gc : Option ℚ) :
    (∀ b g, bc = some b → gc = some g → 0 < b →
        compute_savings bc gc = (b - g, (b - g) / b * 100)) ∧
    (bc = none → compute_savings bc gc = (0, 0)) ∧
    (∀ b, bc = some b → b ≤ 0 → compute_savings bc gc = (0, 0)) := by
  refine ⟨?_, ?_, ?_⟩
  · rintro b g rfl rfl hb
    simp [compute_savings, not_le.mpr hb]
  · rintro rfl
    cases gc <;> rfl
  · rintro b rfl hb
    cases gc with
    | none => rfl
    | some g => simp [compute_savings, hb]

/-- Witness for C9 at concrete inputs. -/
theorem compute_savings_cases_witness :
    compute_savings (some 4) (some 1) = (3, 75) ∧
    compute_savings none (some 1) = (0, 0) ∧
    compute_savings (some (-2)) (some 1) = (0, 0) := by
  refine ⟨?_, ?_, ?_⟩
  · have h := (compute_savings_cases (some 4) (some 1)).1 4 1 rfl rfl (by norm_num)
    rw [h]; norm_num
  · exact (compute_savings_cases none (some 1)).2.1 rfl
  · exact (compute_savings_cases (some (-2)) (some 1)).2.2 (-2) rfl (by norm_num)

/-- C3 counterexample: after one simulated day against a small monthly
budget, the household has used more than its budget with days
remaining, and `get_daily_budget` is strictly negative (the source has
no `max(0, ·)` clamp), refuting `daily_budget = max(0, ...)` and
"never negative". -/
theorem daily_budget_negative_after_overrun :
    get_daily_budget ((simulate_day (mkHousehold 10 "standard" 1 30) [] []).1) = -37 / 15 ∧
    get_daily_budget ((simulate_day (mkHousehold 10 "standard" 1 30) [] []).1) < 0 := by
  constructor <;>
    norm_num [simulate_day, get_daily_budget, mkHousehold, hourUsage, applySchedule,
      applianceContrib, List.range_succ, defaultHVAC]

/-- C3 amended: the daily budget equals
`(monthly_budget - energy_used_month) / (month_days - current_day + 1)`
whenever `current_day ≤ month_days` (with no clamp at zero, so it is
negative when the month's usage exceeds the monthly budget while days
remain), and equals 0 whenever `current_day > month_days`. -/
theorem daily_budget_formula (h : Household) :
    (h.monthDays < h.currentDay → get_daily_budget h = 0) ∧
    (h.currentDay ≤ h.monthDays →
      get_daily_budget h =
        (h.monthlyBudget - h.energyUsedMonth) / ((h.monthDays - h.currentDay + 1 : ℤ) : ℚ)) := by
  unfold get_daily_budget
  constructor
  · intro hlt
    rw [if_pos (by omega)]
  · intro hle
    rw [if_neg (by omega)]

/-- Witness for C3 (amended) at concrete households. -/
theorem daily_budget_formula_witness :
    get_daily_budget (mkHousehold 10 "standard" 31 30) = 0 ∧
    get_daily_budget (mkHousehold 10 "standard" 1 30) = 1 / 3 := by
  constructor
  · exact (daily_budget_formula (mkHousehold 10 "standard" 31 30)).1 (by norm_num [mkHousehold])
  · have h := (daily_budget_formula (mkHousehold 10 "standard" 1 30)).2 (by norm_num [mkHousehold])
    rw [h]
    norm_num [mkHousehold]

/-- C4: each `simulate_day` call adds exactly that day's total energy
and total cost to the household's monthly accumulators, so two
successive calls against the same household (as the planner's baseline
then greedy calls do) accumulate both days' totals: the call is a
durable mutation, not a pure read. -/
theorem simulate_day_accumulates_monthly_totals (h : Household)
    (s1 s2 : Schedule) (c1 c2 : List ℚ) :
    ((simulate_day h s1 c1).1.energyUsedMonth
        = h.energyUsedMonth + (simulate_day h s1 c1).2.total_kwh) ∧
    ((simulate_day h s1 c1).1.monthCost
        = h.monthCost + (simulate_day h s1 c1).2.total_cost) ∧
    ((simulate_day (simulate_day h s1 c1).1 s2 c2).1.energyUsedMonth
        = h.energyUsedMonth + (simulate_day h s1 c1).2.total_kwh
            + (simulate_day (simulate_day h s1 c1).1 s2 c2).2.total_kwh) ∧
    ((simulate_day (simulate_day h s1 c1).1 s2 c2).1.monthCost
        = h.monthCost + (simulate_day h s1 c1).2.total_cost
            + (simulate_day (simulate_day h s1 c1).1 s2 c2).2.total_cost) :=
  ⟨rfl, rfl, rfl, rfl⟩

lemma baselineAux_eq_starts : ∀ (apps : List Appliance) (cur : ℕ) (l : List (ℕ × String)),
    baselineAux apps cur = some l → l = baselineStarts apps cur := by
  intro apps
  induction apps with
  | nil =>
      intro cur l h
      simp only [baselineAux, Option.some.injEq] at h
      simp [baselineStarts, ← h]
  | cons a rest ih =>
      intro cur l h
      by_cases hc : cur < 24
      · rw [baselineAux, if_pos hc] at h
        cases heq : baselineAux rest (min 24 (cur + intDuration a)) with
        | none => rw [heq] at h; exact absurd h (by simp)
        | some l' =>
            rw [heq] at h
            simp only [Option.some.injEq] at h
            rw [baselineStarts, ← ih _ _ heq, ← h]
      · rw [baselineAux, if_neg hc] at h
        exact absurd h (by simp)

lemma baselineAux_isSome_iff : ∀ (apps : List Appliance) (cur : ℕ),
    (baselineAux apps cur).isSome = true ↔ ∀ p ∈ baselineStarts apps cur, p.1 < 24 := by
  intro apps
  induction apps with
  | nil => intro cur; simp [baselineAux, baselineStarts]
  | cons a rest ih =>
      intro cur
      by_cases hc : cur < 24
      · rw [baselineAux, if_pos hc]
        have hmatch : ∀ o : Option (List (ℕ × String)),
            (match o with
              | some l => some ((cur, a.name) :: l)
              | none => none).isSome = o.isSome := by
          intro o; cases o <;> rfl
        rw [hmatch]
        rw [ih]
        simp [baselineStarts, hc]
      · rw [baselineAux, if_neg hc]
        simp only [Option.isSome_none, Bool.false_eq_true, false_iff]
        intro hall
        exact hc (hall (cur, a.name) (by simp [baselineStarts]))

/-- C2 counterexample: three appliances of twelve hours each make the
clamped running hour reach 24 before the third appliance, and the
baseline allocator fails (the source raises `KeyError` on
`schedule[24]`), refuting "the baseline allocator succeeds (never
raises)" and "no hour ≥ 24 is ever used as a schedule key". -/
theorem baseline_policy_raises_on_overflow :
    baseline_policy
      [mkAppliance "A" 1 12 23, mkAppliance "B" 1 12 23, mkAppliance "C" 1 12 23] = none := by
  decide

/-- C2 amended: the baseline allocator places the first appliance at
hour 0 and each subsequent appliance at `min(24, previous start +
previous clamped duration)`; it succeeds — returning exactly those
placements — if and only if every attempted start hour is below 24,
and otherwise it raises a `KeyError` (hour 24 is used as a schedule
key) instead of placing the remaining appliances. -/
theorem baseline_policy_characterized (apps : List Appliance) :
    ((baseline_policy apps).isSome = true ↔ ∀ p ∈ baselineStarts apps 0, p.1 < 24) ∧
    (∀ l, baseline_policy apps = some l → l = baselineStarts apps 0) ∧
    (∀ a rest, apps = a :: rest → (baselineStarts apps 0).head? = some (0, a.name)) := by
  refine ⟨baselineAux_isSome_iff apps 0, fun l h => baselineAux_eq_starts apps 0 l h, ?_⟩
  rintro a rest rfl
  rfl

/-- Witness for C2 (amended) at a concrete appliance list. -/
theorem baseline_policy_characterized_witness :
    (baseline_policy [mkAppliance "A" 1 2 23, mkAppliance "B" 1 3 21]).isSome = true ∧
    baselineStarts [mkAppliance "A" 1 2 23, mkAppliance "B" 1 3 21] 0 = [(0, "A"), (2, "B")] := by
  constructor
  · exact (baseline_policy_characterized
      [mkAppliance "A" 1 2 23, mkAppliance "B" 1 3 21]).1.mpr (by decide)
  · decide

lemma greedyScan_skip (power : ℚ) (prices : List ℚ) (d : ℕ) :
    ∀ (n s : ℕ) (acc : ℕ × Option ℚ), (∀ t, s ≤ t → t < s + n → 24 < t + d) →
      greedyScan power prices d n s acc = acc := by
  intro n
  induction n with
  | zero => intro s acc _; rfl
  | succ m ih =>
      intro s acc hall
      rw [greedyScan]
      have hstep : greedyStep power prices d s acc = acc := by
        obtain ⟨bs, bc⟩ := acc
        rw [greedyStep]
        rw [if_pos (hall s le_rfl (by omega))]
      rw [hstep]
      exact ih (s + 1) acc (fun t ht1 ht2 => hall t (by omega) (by omega))

/-- C8: an appliance none of whose candidate starts in
`[0, latest_start]` fits before hour 24 is not a failure: the greedy
allocator leaves `best_start` at its initial value and assigns the
appliance `start = 0`. -/
theorem greedy_infeasible_defaults_to_zero (prices : List ℚ) (a : Appliance)
    (hinf : ∀ t, t ≤ latestStart a → 24 < t + intDuration a) :
    greedyStartFor prices a = 0 := by
  unfold greedyStartFor
  rw [greedyScan_skip a.powerkW prices (intDuration a) (latestStart a + 1) 0 (0, none)
    (fun t _ ht2 => hinf t (by omega))]

/-- Witness for C8: a 25-hour appliance with deadline 23 has
`latest_start = 0` and no feasible candidate, and is assigned start 0. -/
theorem greedy_infeasible_defaults_to_zero_witness :
    greedyStartFor (tou_prices "standard") (mkAppliance "X" 1 25 23) = 0 := by
  apply greedy_infeasible_defaults_to_zero
  intro t ht
  have h1 : latestStart (mkAppliance "X" 1 25 23) = 0 := by decide
  have h2 : intDuration (mkAppliance "X" 1 25 23) = 25 := by decide
  omega

lemma mem_assignFirst (n : String) (hr : ℤ) :
    ∀ (apps : List Appliance) (a : Appliance), a ∈ assignFirst n hr apps → a.name ≠ n → a ∈ apps := by
  intro apps
  induction apps with
  | nil => intro a ha _; simp [assignFirst] at ha
  | cons b rest ih =>
      intro a ha hne
      by_cases hb : b.name = n
      · rw [assignFirst, if_pos hb] at ha
        rcases List.mem_cons.mp ha with h | h
        · exact absurd (by rw [h]; exact hb) hne
        · exact List.mem_cons_of_mem b h
      · rw [assignFirst, if_neg hb] at ha
        rcases List.mem_cons.mp ha with h | h
        · exact h ▸ List.mem_cons_self b rest
        · exact List.mem_cons_of_mem b (ih a h hne)

lemma mem_foldNames (hr : ℤ) :
    ∀ (names : List String) (apps : List Appliance) (a : Appliance),
      a ∈ names.foldl (fun apps n => assignFirst n hr apps) apps → a.name ∉ names → a ∈ apps := by
  intro names
  induction names with
  | nil => intro apps a ha _; exact ha
  | cons n ns ih =>
      intro apps a ha hn
      simp only [List.foldl_cons] at ha
      have h1 : a ∈ assignFirst n hr apps :=
        ih _ a ha (fun hmem => hn (List.mem_cons_of_mem n hmem))
      exact mem_assignFirst n hr apps a h1 (fun he => hn (he ▸ List.mem_cons_self n ns))

lemma mem_applySchedule :
    ∀ (sched : Schedule) (apps : List Appliance) (a : Appliance),
      a ∈ applySchedule sched apps → a.name ∉ scheduleNames sched → a ∈ apps := by
  intro sched
  induction sched with
  | nil => intro apps a ha _; exact ha
  | cons p rest ih =>
      intro apps a ha hn
      have hsplit : a.name ∉ p.2 ∧ a.name ∉ scheduleNames rest := by
        constructor <;> intro hmem <;> apply hn <;>
          simp only [scheduleNames, List.map_cons, List.flatten_cons, List.mem_append]
        · exact Or.inl hmem
        · exact Or.inr hmem
      have hstep : applySchedule (p :: rest) apps
          = applySchedule rest (p.2.foldl (fun apps n => assignFirst n p.1 apps) apps) := rfl
      rw [hstep] at ha
      exact mem_foldNames p.1 p.2 apps a (ih _ a ha hsplit.2) hsplit.1

/-- C7: the simulator is a total function over any schedule, setpoint
curve, and appliance list (the embedding is a function, matching the
source's absence of any failing operation: unknown names in the
schedule match no appliance, the setpoint lookup is length-guarded,
and prices are defined for all 24 hours); moreover an appliance never
assigned a scheduled start, or whose duration is zero, contributes
zero to every hour's usage. -/
theorem simulate_day_unscheduled_contributes_zero (h : Household) (sched : Schedule)
    (curve : List ℚ) :
    ((simulate_day h sched curve).2.hourly_usage
        = (List.range 24).map
            (hourUsage (applySchedule sched (h.appliances.map clearAppliance)) h.hvac.powerkW)) ∧
    (∀ a ∈ applySchedule sched (h.appliances.map clearAppliance),
      (a.name ∉ scheduleNames sched ∨ a.durationHours = 0) →
      ∀ hr : ℕ, applianceContrib hr a = 0) := by
  refine ⟨rfl, ?_⟩
  intro a ha hcase hr
  rcases hcase with hname | hdur
  · have h1 : a ∈ h.appliances.map clearAppliance := mem_applySchedule sched _ a ha hname
    obtain ⟨b, _, rfl⟩ := List.mem_map.mp h1
    rfl
  · rw [applianceContrib]
    cases a.scheduledStart with
    | none => rfl
    | some s => simp [hdur]

/-- Witness for C7 at a concrete household and schedule. -/
theorem simulate_day_unscheduled_contributes_zero_witness :
    applianceContrib 5 (clearAppliance (mkAppliance "X" 2 3 10)) = 0 := by
  have h := (simulate_day_unscheduled_contributes_zero
      (add_appliance (mkHousehold 100 "standard" 1 30) (mkAppliance "X" 2 3 10))
      [((3 : ℤ), ["Y"])] []).2
  exact h (clearAppliance (mkAppliance "X" 2 3 10)) (by decide) (Or.inl (by decide)) 5

lemma assignFirst_map {α : Type} (f : Appliance → α)
    (hf : ∀ (a : Appliance) (hr : ℤ),
      f { a with isScheduled := true, scheduledStart := some hr } = f a) :
    ∀ (n : String) (hr : ℤ) (apps : List Appliance),
      (assignFirst n hr apps).map f = apps.map f := by
  intro n hr apps
  induction apps with
  | nil => rfl
  | cons b rest ih =>
      by_cases hb : b.name = n
      · rw [assignFirst, if_pos hb]
        simp [hf]
      · rw [assignFirst, if_neg hb]
        simp [ih]

lemma foldNames_map {α : Type} (f : Appliance → α)
    (hf : ∀ (a : Appliance) (hr : ℤ),
      f { a with isScheduled := true, scheduledStart := some hr } = f a) :
    ∀ (names : List String) (hr : ℤ) (apps : List Appliance),
      (names.foldl (fun apps n => assignFirst n hr apps) apps).map f = apps.map f := by
  intro names
  induction names with
  | nil => intro hr apps; rfl
  | cons n ns ih =>
      intro hr apps
      simp only [List.foldl_cons]
      rw [ih, assignFirst_map f hf]

lemma applySchedule_map {α : Type} (f : Appliance → α)
    (hf : ∀ (a : Appliance) (hr : ℤ),
      f { a with isScheduled := true, scheduledStart := some hr } = f a) :
    ∀ (sched : Schedule) (apps : List Appliance),
      (applySchedule sched apps).map f = apps.map f := by
  intro sched
  induction sched with
  | nil => intro apps; rfl
  | cons p rest ih =>
      intro apps
      have hstep : applySchedule (p :: rest) apps
          = applySchedule rest (p.2.foldl (fun apps n => assignFirst n p.1 apps) apps) := rfl
      rw [hstep, ih, foldNames_map f hf]

lemma clearAppliance_map {α : Type} (f : Appliance → α)
    (hf : ∀ a : Appliance, f (clearAppliance a) = f a) (apps : List Appliance) :
    (apps.map clearAppliance).map f = apps.map f := by
  rw [List.map_map]
  exact List.map_congr_left (fun a _ => hf a)

lemma comfortStep_preserves (curve : List ℚ) (st : HVACSystem × ℕ) (hr : ℕ) :
    ((comfortStep curve st hr).1.minTemp = st.1.minTemp) ∧
    ((comfortStep curve st hr).1.maxTemp = st.1.maxTemp) ∧
    ((comfortStep curve st hr).1.powerkW = st.1.powerkW) := by
  obtain ⟨hv, v⟩ := st
  unfold comfortStep
  dsimp only
  refine ⟨?_, ?_, ?_⟩ <;> (split <;> rfl)

lemma comfortFold_preserves (curve : List ℚ) :
    ∀ (l : List ℕ) (st : HVACSystem × ℕ),
      ((l.foldl (comfortStep curve) st).1.minTemp = st.1.minTemp) ∧
      ((l.foldl (comfortStep curve) st).1.maxTemp = st.1.maxTemp) ∧
      ((l.foldl (comfortStep curve) st).1.powerkW = st.1.powerkW) := by
  intro l
  induction l with
  | nil => intro st; exact ⟨rfl, rfl, rfl⟩
  | cons x xs ih =>
      intro st
      simp only [List.foldl_cons]
      obtain ⟨h1, h2, h3⟩ := ih (comfortStep curve st x)
      obtain ⟨g1, g2, g3⟩ := comfortStep_preserves curve st x
      exact ⟨h1.trans g1, h2.trans g2, h3.trans g3⟩

/-- C10: `simulate_day` leaves the monthly budget, the current day,
the month length, the pricing table, the HVAC comfort bounds and
constant draw, the number of appliances, and every appliance's name,
power, duration, deadline, and flexibility flag unchanged; it never
adds or removes appliances.  (Its mutations are confined to the
day/month accumulators, the per-hour arrays, the thermostat's current
temperature and setpoint, and the appliances' scheduling fields.) -/
theorem simulate_day_frame (h : Household) (sched : Schedule) (curve : List ℚ) :
    ((simulate_day h sched curve).1.monthlyBudget = h.monthlyBudget) ∧
    ((simulate_day h sched curve).1.currentDay = h.currentDay) ∧
    ((simulate_day h sched curve).1.monthDays = h.monthDays) ∧
    ((simulate_day h sched curve).1.pricingType = h.pricingType) ∧
    ((simulate_day h sched curve).1.hvac.minTemp = h.hvac.minTemp) ∧
    ((simulate_day h sched curve).1.hvac.maxTemp = h.hvac.maxTemp) ∧
    ((simulate_day h sched curve).1.hvac.powerkW = h.hvac.powerkW) ∧
    ((simulate_day h sched curve).1.appliances.length = h.appliances.length) ∧
    ((simulate_day h sched curve).1.appliances.map Appliance.name
        = h.appliances.map Appliance.name) ∧
    ((simulate_day h sched curve).1.appliances.map Appliance.powerkW
        = h.appliances.map Appliance.powerkW) ∧
    ((simulate_day h sched curve).1.appliances.map Appliance.durationHours
        = h.appliances.map Appliance.durationHours) ∧
    ((simulate_day h sched curve).1.appliances.map Appliance.deadlineHour
        = h.appliances.map Appliance.deadlineHour) ∧
    ((simulate_day h sched curve).1.appliances.map Appliance.isFlexible
        = h.appliances.map Appliance.isFlexible) := by
  have happ : ∀ {α : Type} (f : Appliance → α),
      (∀ (a : Appliance) (hr : ℤ),
        f { a with isScheduled := true, scheduledStart := some hr } = f a) →
      (∀ a : Appliance, f (clearAppliance a) = f a) →
      (simulate_day h sched curve).1.appliances.map f = h.appliances.map f := by
    intro α f hf1 hf2
    show (applySchedule sched (h.appliances.map clearAppliance)).map f = _
    rw [applySchedule_map f hf1 sched, clearAppliance_map f hf2]
  have hname := happ Appliance.name (fun _ _ => rfl) (fun _ => rfl)
  have hhvac := comfortFold_preserves curve (List.range 24) (h.hvac, 0)
  refine ⟨rfl, rfl, rfl, rfl, hhvac.1, hhvac.2.1, hhvac.2.2, ?_, hname,
    happ Appliance.powerkW (fun _ _ => rfl) (fun _ => rfl),
    happ Appliance.durationHours (fun _ _ => rfl) (fun _ => rfl),
    happ Appliance.deadlineHour (fun _ _ => rfl) (fun _ => rfl),
    happ Appliance.isFlexible (fun _ _ => rfl) (fun _ => rfl)⟩
  have := congrArg List.length hname
  simpa using this

lemma foldl_add_eq (f : ℕ → ℚ) : ∀ (l : List ℕ) (x : ℚ),
    l.foldl (fun c i => c + f i) x = x + (l.map f).sum := by
  intro l
  induction l with
  | nil => intro x; simp
  | cons y ys ih =>
      intro x
      simp only [List.foldl_cons, List.map_cons, List.sum_cons, ih]
      ring

lemma candCost_eq (power : ℚ) (prices : List ℚ) (s d : ℕ) :
    candCost power prices s d
      = power * ((List.range d).map (fun i => prices.getD (s + i) 0)).sum := by
  rw [candCost, foldl_add_eq (fun i => power * prices.getD (s + i) 0) (List.range d) 0,
    zero_add]
  induction (List.range d) with
  | nil => simp
  | cons y ys ih =>
      simp only [List.map_cons, List.sum_cons, ih]
      ring

lemma scanInv_init (power : ℚ) (prices : List ℚ) (d : ℕ) :
    ScanInv power prices d 0 (0, none) := by
  constructor
  · intro _
    exact ⟨rfl, fun t ht => absurd ht (Nat.not_lt_zero t)⟩
  · intro b hb
    simp at hb

lemma scanInv_step (power : ℚ) (prices : List ℚ) (d s : ℕ) (acc : ℕ × Option ℚ)
    (hinv : ScanInv power prices d s acc) :
    ScanInv power prices d (s + 1) (greedyStep power prices d s acc) := by
  obtain ⟨bs, bc⟩ := acc
  obtain ⟨hnone, hsome⟩ := hinv
  rw [greedyStep]
  by_cases hif : 24 < s + d
  · rw [if_pos hif]
    refine ⟨?_, ?_⟩
    · intro hbc
      obtain ⟨h1, h2⟩ := hnone hbc
      refine ⟨h1, fun t ht hf => ?_⟩
      rcases Nat.lt_succ_iff_lt_or_eq.mp ht with h | h
      · exact h2 t h hf
      · omega
    · intro b hb
      obtain ⟨g1, g2, g3, g4, g5⟩ := hsome b hb
      refine ⟨g1, by omega, g3, fun t ht hf => ?_, g5⟩
      rcases Nat.lt_succ_iff_lt_or_eq.mp ht with h | h
      · exact g4 t h hf
      · omega
  · rw [if_neg hif]
    cases bc with
    | none =>
        obtain ⟨h1, h2⟩ := hnone rfl
        dsimp only
        refine ⟨fun hc => by simp at hc, ?_⟩
        intro b hb
        simp only [Option.some.injEq] at hb
        refine ⟨by omega, by omega, hb.symm, fun t ht hf => ?_, fun t ht hf => ?_⟩
        · rcases Nat.lt_succ_iff_lt_or_eq.mp ht with h | h
          · exact absurd hf (h2 t h)
          · subst h; rw [hb]
        · subst h1
          exact absurd hf (h2 t ht)
    | some b0 =>
        obtain ⟨g1, g2, g3, g4, g5⟩ := hsome b0 rfl
        dsimp only
        by_cases hlt : candCost power prices s d < b0
        · rw [if_pos hlt]
          refine ⟨fun hc => by simp at hc, ?_⟩
          intro b hb
          simp only [Option.some.injEq] at hb
          refine ⟨by omega, by omega, hb.symm, fun t ht hf => ?_, fun t ht hf => ?_⟩
          · rcases Nat.lt_succ_iff_lt_or_eq.mp ht with h | h
            · rw [← hb]; exact le_of_lt (lt_of_lt_of_le hlt (g4 t h hf))
            · subst h; rw [hb]
          · rw [← hb]; exact lt_of_lt_of_le hlt (g4 t ht hf)
        · rw [if_neg hlt]
          refine ⟨fun hc => by simp at hc, ?_⟩
          intro b hb
          simp only [Option.some.injEq] at hb
          subst hb
          refine ⟨g1, by omega, g3, fun t ht hf => ?_, g5⟩
          rcases Nat.lt_succ_iff_lt_or_eq.mp ht with h | h
          · exact g4 t h hf
          · subst h; exact not_lt.mp hlt

lemma scanInv_fold (power : ℚ) (prices : List ℚ) (d : ℕ) :
    ∀ (n s : ℕ) (acc : ℕ × Option ℚ), ScanInv power prices d s acc →
      ScanInv power prices d (s + n) (greedyScan power prices d n s acc) := by
  intro n
  induction n with
  | zero =>
      intro s acc h
      simpa using h
  | succ m ih =>
      intro s acc h
      rw [greedyScan]
      have hres := ih (s + 1) _ (scanInv_step power prices d s acc h)
      rw [(by omega : s + 1 + m = s + (m + 1))] at hres
      exact hres

lemma intDuration_eq (a : Appliance) (d : ℕ) (hdur : a.durationHours = (d : ℚ))
    (hd1 : 1 ≤ d) : intDuration a = d := by
  rw [intDuration, pyInt, hdur]
  rw [if_neg (not_lt.mpr (by positivity))]
  rw [Int.floor_natCast]
  omega

/-- C1: for an appliance with integer duration `d ≥ 1` and deadline in
`[0, 23]` that has at least one candidate start in `[0, latest_start]`
with `start + d ≤ 24` (where `latest_start = max(0, deadline − d + 1)`),
the greedy allocator's chosen start is such a candidate, attains the
minimum of `power_kw × Σ price(h)` for `h ∈ [start, start + d)` over
all such candidates, and among equal-cost minimizers it is the
smallest (earliest) candidate. -/
theorem greedy_start_minimizes_cost (prices : List ℚ) (a : Appliance) (d L s : ℕ)
    (hdur : a.durationHours = (d : ℚ)) (hd1 : 1 ≤ d)
    (hdl0 : 0 ≤ a.deadlineHour) (hdl23 : a.deadlineHour ≤ 23)
    (hL : L = (max 0 (a.deadlineHour - (d : ℤ) + 1)).toNat)
    (hs : s = greedyStartFor prices a)
    (hex : ∃ t, t ≤ L ∧ t + d ≤ 24) :
    s ≤ L ∧ s + d ≤ 24 ∧
    (∀ t, t ≤ L → t + d ≤ 24 →
      a.powerkW * ((List.range d).map (fun i => prices.getD (s + i) 0)).sum
        ≤ a.powerkW * ((List.range d).map (fun i => prices.getD (t + i) 0)).sum) ∧
    (∀ t, t ≤ L → t + d ≤ 24 →
      a.powerkW * ((List.range d).map (fun i => prices.getD (t + i) 0)).sum
        = a.powerkW * ((List.range d).map (fun i => prices.getD (s + i) 0)).sum →
      s ≤ t) := by
  have hd : intDuration a = d := intDuration_eq a d hdur hd1
  have hLs : latestStart a = L := by rw [latestStart, hd, hL]
  have hinv := scanInv_fold a.powerkW prices (intDuration a) (latestStart a + 1) 0 (0, none)
    (scanInv_init a.powerkW prices (intDuration a))
  rw [zero_add, hd, hLs] at hinv
  cases hres : (greedyScan a.powerkW prices d (L + 1) 0 (0, none)).2 with
  | none =>
      exfalso
      obtain ⟨t, ht, htf⟩ := hex
      obtain ⟨h1, h2⟩ := hinv.1 hres
      exact h2 t (by omega) htf
  | some b =>
      obtain ⟨g1, g2, g3, g4, g5⟩ := hinv.2 b hres
      have hseq : s = (greedyScan a.powerkW prices d (L + 1) 0 (0, none)).1 := by
        rw [hs, greedyStartFor, hd, hLs]
      rw [← hseq] at g1 g2 g3 g5
      refine ⟨by omega, g1, fun t ht htf => ?_, fun t ht htf heq => ?_⟩
      · have := g4 t (by omega) htf
        rw [g3] at this
        rw [← candCost_eq, ← candCost_eq]
        exact this
      · by_contra hcon
        have htlt : t < s := by omega
        have := g5 t htlt htf
        rw [g3] at this
        rw [← candCost_eq, ← candCost_eq] at heq
        exact absurd heq (ne_of_gt this)

/-- Witness for C1: the EV charger of the default fixture (7 kW, 4 h,
deadline 7) against the standard pricing profile. -/
theorem greedy_start_minimizes_cost_witness :
    greedyStartFor (tou_prices "standard") (mkAppliance "EV Charger" 7 4 7) ≤ 4 ∧
    greedyStartFor (tou_prices "standard") (mkAppliance "EV Charger" 7 4 7) + 4 ≤ 24 := by
  have h := greedy_start_minimizes_cost (tou_prices "standard")
    (mkAppliance "EV Charger" 7 4 7) 4 4
    (greedyStartFor (tou_prices "standard") (mkAppliance "EV Charger" 7 4 7))
    (by norm_num [mkAppliance]) (by norm_num)
    (by norm_num [mkAppliance]) (by norm_num [mkAppliance])
    (by decide) rfl ⟨0, by norm_num, by norm_num⟩
  exact ⟨h.1, h.2.1⟩

/-- C5: for every 24-hour price table, the greedy allocator's peak
threshold is the element at index 18 (= `int(0.75 × 24)`) of the
ascending-sorted price list (the sort being the sorted permutation of
the prices), and each hour's setpoint is `min(max_temp, base + 2.0)`
when its price reaches the threshold and `base` otherwise; in
particular, for a table of 6 equal low prices and 18 equal high
prices, exactly the 18 high-price hours are elevated by 2.0 (the
comfort cap permitting) and the 6 low-price hours are unchanged. -/
theorem peak_threshold_and_setpoints :
    (∀ (prices : List ℚ) (base maxT : ℚ), prices.length = 24 →
      (List.insertionSort (fun a b => a ≤ b) prices).Perm prices ∧
      List.Sorted (fun a b => a ≤ b) (List.insertionSort (fun a b => a ≤ b) prices) ∧
      peakThreshold prices = (List.insertionSort (fun a b => a ≤ b) prices).getD 18 0 ∧
      (∀ hh : ℕ, hh < 24 →
        (hvacSetpoints prices base maxT).getD hh 0 =
          if peakThreshold prices ≤ prices.getD hh 0 then min maxT (base + 2) else base)) ∧
    hvacSetpoints (List.replicate 6 1 ++ List.replicate 18 2) 72 76
      = List.replicate 6 72 ++ List.replicate 18 74 := by
  constructor
  · intro prices base maxT hlen
    refine ⟨List.perm_insertionSort _ prices, List.sorted_insertionSort _ prices, ?_, ?_⟩
    · unfold peakThreshold
      congr 1
      rw [hlen]
      norm_num [pyInt]
      decide
    · intro hh hlt
      unfold hvacSetpoints
      rw [List.getD_eq_getElem?_getD, List.getElem?_map, List.getElem?_range hlt]
      rfl
  · have hpk : peakThreshold (List.replicate 6 (1 : ℚ) ++ List.replicate 18 2) = 2 := by
      norm_num [peakThreshold, pyInt, List.insertionSort, List.orderedInsert, List.replicate]
      decide
    rw [hvacSetpoints, hpk]
    norm_num [List.range_succ, List.replicate, List.getD]

/-- Witness for C5: the standard profile's 24 prices. -/
theorem peak_threshold_and_setpoints_witness :
    peakThreshold (tou_prices "standard")
      = (List.insertionSort (fun a b => a ≤ b) (tou_prices "standard")).getD 18 0 := by
  exact ((peak_threshold_and_setpoints.1 (tou_prices "standard") 72 76) (by decide)).2.2.1

end EnergyAdvisor
